import Mathlib

/-!
Verification of the Galton-board simulation in `src/script.js`.

The file shallowly embeds the second (superseding) `DOMContentLoaded` block of
`script.js`: that block re-registers every event listener, so it is the code
that actually runs, and the spec (§9) designates it as authoritative.

Modelling conventions:
* JavaScript numbers are modelled as rationals (`ℚ`); the integer results of
  `parseInt` are modelled as `Option ℤ`, with `none` standing for `NaN`.
* `Math.random()` draws are passed in explicitly, either as a single rational
  or as a stream `ℕ → ℚ` consumed in call order; theorems quantify over them.
* `Math.sqrt(d) < r` (with `r ≥ 0`, which holds for every layout the code can
  produce, since the horizontal pitch is floored at 18 and hence the scale
  factor is positive) is embedded as the equivalent `d < r^2`.
* DOM drawing calls are pure and are omitted; timer/animation handles are
  modelled as booleans (`true` = handle set).
-/

namespace Galton

/-! ## Base configuration constants (script.js lines 368-386, 411-412) -/

def BASE_PEG_RADIUS : ℚ := 6
def BASE_BALL_RADIUS : ℚ := 5
def BASE_PEG_SPACING_X : ℚ := 40
def BASE_PEG_SPACING_Y : ℚ := 30
def BASE_START_Y_OFFSET : ℚ := 30
def BASE_DRAWN_BIN_HEIGHT : ℚ := 60
def BASE_SPACE_BELOW_PEGS : ℚ := BASE_PEG_SPACING_Y
def BASE_BOTTOM_PADDING : ℚ := 40
def GRAVITY : ℚ := 3/20
def BOUNCE_FACTOR : ℚ := 1/10
def HORIZONTAL_BUMP : ℚ := 3/2
def CANVAS_MARGIN_LEFT : ℚ := 10
def CANVAS_MARGIN_RIGHT : ℚ := 10

/-! ## Geometry layout (resizeCanvas, script.js lines 542-592) -/

/-- The scalable configuration produced by `resizeCanvas`, together with the
canvas dimensions it assigns. -/
structure Layout where
  canvasWidth : ℚ
  canvasHeight : ℚ
  scaleFactor : ℚ
  currentPegSpacingX : ℚ
  currentPegSpacingY : ℚ
  currentStartYOffset : ℚ
  currentPegRadius : ℚ
  currentBallRadius : ℚ
  currentDrawnBinHeight : ℚ
  currentSpaceBelowPegs : ℚ
  currentBottomPadding : ℚ
  deriving DecidableEq

/-- Body of `resizeCanvas` (lines 549-588), as a function of the row count and
of the width available to the canvas element (viewport minus margins). -/
def computeLayout (numRows : ℤ) (availableWidth : ℚ) : Layout :=
  let idealContentWidthUnscaled : ℚ := ((numRows : ℚ) + 7/2) * BASE_PEG_SPACING_X
  let finalCanvasWidth : ℚ :=
    if idealContentWidthUnscaled > availableWidth then availableWidth
    else idealContentWidthUnscaled
  let currentPegSpacingX : ℚ := finalCanvasWidth / ((numRows : ℚ) + 7/2)
  let minPegSpacingX : ℚ := BASE_PEG_RADIUS * 3
  let currentPegSpacingX' : ℚ :=
    if currentPegSpacingX < minPegSpacingX then minPegSpacingX else currentPegSpacingX
  let finalCanvasWidth' : ℚ :=
    if currentPegSpacingX < minPegSpacingX then ((numRows : ℚ) + 7/2) * minPegSpacingX
    else finalCanvasWidth
  let scaleFactor : ℚ := currentPegSpacingX' / BASE_PEG_SPACING_X
  let currentPegSpacingY : ℚ := BASE_PEG_SPACING_Y * scaleFactor
  let currentStartYOffset : ℚ := BASE_START_Y_OFFSET * scaleFactor
  let currentPegRadius : ℚ := BASE_PEG_RADIUS * scaleFactor
  let currentBallRadius : ℚ := BASE_BALL_RADIUS * scaleFactor
  let currentDrawnBinHeight : ℚ := BASE_DRAWN_BIN_HEIGHT * scaleFactor
  let currentSpaceBelowPegs : ℚ := BASE_SPACE_BELOW_PEGS * scaleFactor
  let currentBottomPadding : ℚ := BASE_BOTTOM_PADDING * scaleFactor
  { canvasWidth := finalCanvasWidth'
    canvasHeight := currentStartYOffset + ((numRows : ℚ) - 1) * currentPegSpacingY +
      currentPegRadius + currentSpaceBelowPegs + currentDrawnBinHeight + currentBottomPadding
    scaleFactor := scaleFactor
    currentPegSpacingX := currentPegSpacingX'
    currentPegSpacingY := currentPegSpacingY
    currentStartYOffset := currentStartYOffset
    currentPegRadius := currentPegRadius
    currentBallRadius := currentBallRadius
    currentDrawnBinHeight := currentDrawnBinHeight
    currentSpaceBelowPegs := currentSpaceBelowPegs
    currentBottomPadding := currentBottomPadding }

/-- `resizeCanvas` (lines 542-592): the available width is the viewport width
minus the two canvas margins (line 547). -/
def resizeCanvas (numRows : ℤ) (viewportWidth : ℚ) : Layout :=
  computeLayout numRows (viewportWidth - CANVAS_MARGIN_LEFT - CANVAS_MARGIN_RIGHT)

/-! ## Board entities -/

structure Peg where
  x : ℚ
  y : ℚ
  radius : ℚ
  deriving DecidableEq

structure Bin where
  x : ℚ
  y : ℚ
  width : ℚ
  height : ℚ
  count : ℕ
  maxCapacity : ℤ
  deriving DecidableEq

/-- A ball (createBall, lines 650-663).  The constant `color` field is omitted.
`landed`/`isSettling` are the lifecycle flags. -/
structure Ball where
  x : ℚ
  y : ℚ
  radius : ℚ
  vx : ℚ
  vy : ℚ
  landed : Bool
  isSettling : Bool
  deriving DecidableEq

/-- One row of pegs: the inner loop of `initPegs` (lines 602-614) for a fixed
0-indexed `row`; the row holds `row + 1` pegs. -/
def pegRow (L : Layout) (row : ℕ) : List Peg :=
  let numPegsInRow := row + 1
  let rowWidth : ℚ := ((numPegsInRow : ℚ) - 1) * L.currentPegSpacingX
  let startX : ℚ := (L.canvasWidth - rowWidth) / 2
  (List.range numPegsInRow).map fun (col : ℕ) =>
    { x := startX + (col : ℚ) * L.currentPegSpacingX
      y := L.currentStartYOffset + (row : ℚ) * L.currentPegSpacingY
      radius := L.currentPegRadius }

/-- `initPegs` (lines 598-615): rows `0 .. NUM_ROWS - 1`.  A non-positive row
count gives an empty loop, as in the source. -/
def initPegs (L : Layout) (numRows : ℤ) : List Peg :=
  (List.range numRows.toNat).flatMap (pegRow L)

/-- JavaScript `parseInt(v) || 100` (line 640): `NaN` and `0` are falsy. -/
def jsOr100 (v : Option ℤ) : ℤ :=
  match v with
  | none => 100
  | some n => if n = 0 then 100 else n

/-- `initBins` (lines 621-643).  `numBins = NUM_ROWS + 1`; the loop runs
`max (NUM_ROWS + 1) 0` times. -/
def initBins (L : Layout) (numRows : ℤ) (binCapacityValue : Option ℤ) : List Bin :=
  let numBins := (numRows + 1).toNat
  let binWidth := L.currentPegSpacingX
  let lastPegRowCenterY := L.currentStartYOffset + ((numRows : ℚ) - 1) * L.currentPegSpacingY
  let binsTopY := lastPegRowCenterY + L.currentPegRadius + L.currentSpaceBelowPegs
  let totalBinsWidth := (numBins : ℚ) * binWidth
  let firstBinX := (L.canvasWidth - totalBinsWidth) / 2
  (List.range numBins).map fun (i : ℕ) =>
    { x := firstBinX + (i : ℚ) * binWidth
      y := binsTopY
      width := binWidth
      height := L.currentDrawnBinHeight
      count := 0
      maxCapacity := jsOr100 binCapacityValue }

/-- The immutable per-run environment a tick reads: the current layout and the
peg lattice. -/
structure Env where
  layout : Layout
  pegs : List Peg
  deriving DecidableEq

/-- `createBall` (lines 650-663); `u` is the `Math.random()` draw for the
horizontal jitter. -/
def createBall (env : Env) (u : ℚ) : Ball :=
  let firstPegX : ℚ :=
    match env.pegs with
    | [] => env.layout.canvasWidth / 2
    | p :: _ => p.x
  { x := firstPegX
    y := env.layout.currentStartYOffset - env.layout.currentPegSpacingY
    radius := env.layout.currentBallRadius
    vx := (u - 1/2) * (1/2)
    vy := 0
    landed := false
    isSettling := false }

/-! ## Physics and collision engine (lines 420-536) -/

/-- `applyBallPhysics` (lines 420-424): gravity then position update; the
position update uses the already-updated vertical velocity. -/
def applyBallPhysics (L : Layout) (b : Ball) : Ball :=
  let vy := b.vy + GRAVITY * L.scaleFactor
  { b with vy := vy, x := b.x + b.vx, y := b.y + vy }

/-- Horizontal wall block of `handleBallWallCollisions` (lines 433-438).  The
second clamp tests the possibly-already-clamped `x`, as in the source. -/
def wallHorizontal (L : Layout) (b : Ball) : Ball :=
  if b.x - L.currentBallRadius < 0 ∨ b.x + L.currentBallRadius > L.canvasWidth then
    let b1 := { b with vx := b.vx * (-(1/2)) }
    let b2 := if b1.x - L.currentBallRadius < 0 then { b1 with x := L.currentBallRadius } else b1
    if b2.x + L.currentBallRadius > L.canvasWidth then
      { b2 with x := L.canvasWidth - L.currentBallRadius }
    else b2
  else b

/-- Bottom wall block of `handleBallWallCollisions` (lines 442-445): a ball
whose top edge has passed the canvas bottom, and that is neither settling nor
landed, is marked landed and the active-ball counter is decremented. -/
def wallBottom (L : Layout) (c : ℤ) (b : Ball) : Ball × ℤ :=
  if b.y - L.currentBallRadius > L.canvasHeight ∧ b.isSettling = false ∧ b.landed = false then
    ({ b with landed := true }, c - 1)
  else (b, c)

/-- Top wall block of `handleBallWallCollisions` (lines 447-450). -/
def wallTop (L : Layout) (b : Ball) : Ball :=
  if b.y - L.currentBallRadius < 0 then
    { b with vy := b.vy * (-BOUNCE_FACTOR), y := L.currentBallRadius }
  else b

/-- `handleBallWallCollisions` (lines 431-451): horizontal, then bottom, then
top block; returns the updated ball and active-ball counter. -/
def handleBallWallCollisions (L : Layout) (c : ℤ) (b : Ball) : Ball × ℤ :=
  let b1 := wallHorizontal L b
  let p := wallBottom L c b1
  (wallTop L p.1, p.2)

/-- `Math.sign`. -/
def jsSign (q : ℚ) : ℚ :=
  if 0 < q then 1 else if q < 0 then -1 else 0

/-- Body of the `pegs.forEach` in `handleBallPegCollisions` (lines 459-486) for
one peg.  The collision test `distance < currentBallRadius + currentPegRadius`
is embedded squared (the combined radius is positive for every reachable
layout).  `rnd k` is the `Math.random()` draw; `k` counts consumed draws. -/
def pegCollideStep (L : Layout) (rnd : ℕ → ℚ) (acc : Ball × ℕ) (peg : Peg) : Ball × ℕ :=
  let b := acc.1
  let k := acc.2
  let dx := b.x - peg.x
  let dy := b.y - peg.y
  if dx * dx + dy * dy <
      (L.currentBallRadius + L.currentPegRadius) * (L.currentBallRadius + L.currentPegRadius) then
    let b1 := { b with
      y := peg.y - (L.currentBallRadius + L.currentPegRadius) * jsSign dy * (51/100)
      vy := b.vy * (-BOUNCE_FACTOR) }
    let bump := HORIZONTAL_BUMP * L.scaleFactor
    let vx : ℚ := if b1.x < peg.x then -bump * rnd k else bump * rnd k
    let vx' : ℚ :=
      if |vx| < (1/2) * L.scaleFactor then
        (if b1.x < peg.x then -1 else 1) * (1/2) * L.scaleFactor
      else vx
    ({ b1 with vx := vx' }, k + 1)
  else (b, k)

/-- `handleBallPegCollisions` (lines 458-487): fold the per-peg body over the
peg list (no early exit — a ball may hit several pegs in one tick). -/
def handleBallPegCollisions (L : Layout) (pegs : List Peg) (rnd : ℕ → ℚ) (k : ℕ)
    (b : Ball) : Ball × ℕ :=
  pegs.foldl (pegCollideStep L rnd) (b, k)

/-- Result of a bin interaction: the (possibly updated) bin list, ball,
active-ball counter, and count of consumed random draws. -/
structure BinOut where
  bins : List Bin
  ball : Ball
  c : ℤ
  k : ℕ
  deriving DecidableEq

/-- The `for` loop of `handleBallBinInteractions` (lines 505-534).  The loop
returns as soon as a bin is matched (horizontal overlap and the ball bottom at
or below the bin top); otherwise it moves on to the next bin. -/
def binLoop (L : Layout) (rnd : ℕ → ℚ) (b : Ball) (c : ℤ) (k : ℕ) :
    List Bin → BinOut
  | [] => ⟨[], b, c, k⟩
  | bin :: rest =>
    if (b.x + L.currentBallRadius > bin.x ∧ b.x - L.currentBallRadius < bin.x + bin.width) ∧
        b.y + L.currentBallRadius ≥ bin.y then
      if (bin.count : ℤ) < bin.maxCapacity then
        -- bin has space: capture (lines 513-521)
        let settled :=
          { b with
            isSettling := true
            vx := (0 : ℚ)
            vy := (0 : ℚ)
            x := bin.x + bin.width / 2
            y := bin.y + bin.height - L.currentBallRadius - 1 }
        ⟨{ bin with count := bin.count + 1 } :: rest, settled, c - 1, k⟩
      else
        -- bin full: bounce off (lines 522-530)
        let b1 := { b with vy := b.vy * (-BOUNCE_FACTOR * (1/2)),
                           y := bin.y - L.currentBallRadius - 1/10 }
        if |b1.vx| < (1/10) * L.scaleFactor then
          ⟨bin :: rest,
            { b1 with vx := (if rnd k < 1/2 then -1 else 1) * (1/5) * L.scaleFactor },
            c, k + 1⟩
        else
          ⟨bin :: rest, b1, c, k⟩
    else
      let o := binLoop L rnd b c k rest
      ⟨bin :: o.bins, o.ball, o.c, o.k⟩

/-- `handleBallBinInteractions` (lines 494-536). -/
def handleBallBinInteractions (L : Layout) (rnd : ℕ → ℚ) (bins : List Bin) (c : ℤ)
    (k : ℕ) (b : Ball) : BinOut :=
  match bins with
  | [] => ⟨bins, b, c, k⟩
  | bin0 :: _ =>
    if b.isSettling ∨ b.landed then ⟨bins, b, c, k⟩
    else
      let bottomOfBall := b.y + L.currentBallRadius
      let topOfBins := bin0.y
      if bottomOfBall ≥ topOfBins ∧
          b.y - L.currentBallRadius < topOfBins + L.currentDrawnBinHeight then
        binLoop L rnd b c k bins
      else ⟨bins, b, c, k⟩

/-- Per-ball body of `updateBalls` (lines 740-759): skip landed balls,
finalize settling balls, otherwise run physics, walls (stopping if the ball
fell off the bottom), pegs and bins. -/
def updateBall (env : Env) (rnd : ℕ → ℚ) (bins : List Bin) (c : ℤ) (k : ℕ)
    (b : Ball) : BinOut :=
  if b.landed then ⟨bins, b, c, k⟩
  else if b.isSettling then ⟨bins, { b with landed := true }, c, k⟩
  else
    let b1 := applyBallPhysics env.layout b
    let p := handleBallWallCollisions env.layout c b1
    if p.1.landed then ⟨bins, p.1, p.2, k⟩
    else
      let q := handleBallPegCollisions env.layout env.pegs rnd k p.1
      handleBallBinInteractions env.layout rnd bins p.2 q.2 q.1

/-- Result of one tick over the whole ball list. -/
structure TickOut where
  balls : List Ball
  bins : List Bin
  c : ℤ
  k : ℕ

/-- `updateBalls` (lines 739-760) over a ball list: each ball sees the bins and
counter as left by the balls before it. -/
def updateBallsAux (env : Env) (rnd : ℕ → ℚ) :
    List Ball → List Bin → ℤ → ℕ → TickOut
  | [], bins, c, k => ⟨[], bins, c, k⟩
  | b :: bs, bins, c, k =>
    let o := updateBall env rnd bins c k b
    let rest := updateBallsAux env rnd bs o.bins o.c o.k
    ⟨o.ball :: rest.balls, rest.bins, rest.c, rest.k⟩

/-! ## Simulation driver state (variables of lines 402-408 live during a run) -/

/-- The mutable state a run touches: the ball list, the bins, the active-ball
counter `ballsBeingDropped`, the spawn-session counter and total, and whether
the spawn interval is still registered. -/
structure SimState where
  balls : List Ball
  bins : List Bin
  ballsBeingDropped : ℤ
  ballsDroppedThisSession : ℕ
  ballsToDropTotal : ℤ
  dropIntervalActive : Bool

/-- `tryDropBall` (lines 842-853): spawn a ball while the session total has not
been reached, otherwise clear the spawn interval. -/
def tryDropBall (env : Env) (u : ℚ) (s : SimState) : SimState :=
  if (s.ballsDroppedThisSession : ℤ) < s.ballsToDropTotal then
    { s with balls := s.balls ++ [createBall env u],
             ballsBeingDropped := s.ballsBeingDropped + 1,
             ballsDroppedThisSession := s.ballsDroppedThisSession + 1 }
  else
    { s with dropIntervalActive := false }

/-- The state mutation of one `gameLoop` frame (lines 766-780): the drawing
calls are pure, so the frame's effect on the simulation state is exactly
`updateBalls`. -/
def updateBalls (env : Env) (rnd : ℕ → ℚ) (s : SimState) : SimState :=
  let o := updateBallsAux env rnd s.balls s.bins s.ballsBeingDropped 0
  { s with balls := o.balls, bins := o.bins, ballsBeingDropped := o.c }

/-- An event of a run: a spawn-timer firing (with its jitter draw) or an
animation tick (with its stream of random draws). -/
inductive SimEvent where
  | spawn (u : ℚ)
  | tick (rnd : ℕ → ℚ)

def applyEvent (env : Env) (s : SimState) : SimEvent → SimState
  | .spawn u => tryDropBall env u s
  | .tick rnd => updateBalls env rnd s

def runEvents (env : Env) (s : SimState) (events : List SimEvent) : SimState :=
  events.foldl (applyEvent env) s

/-- The state set up by the valid branch of `startSimulation`
(lines 824-829): no balls, zero counter, fresh bins, spawn interval armed. -/
def initSimState (total : ℤ) (bins : List Bin) : SimState :=
  ⟨[], bins, 0, 0, total, true⟩

/-- The environment `startSimulation` builds for a run with `numRows` rows on a
viewport of width `viewportWidth`. -/
def mkEnv (numRows : ℤ) (viewportWidth : ℚ) : Env :=
  let L := resizeCanvas numRows viewportWidth
  ⟨L, initPegs L numRows⟩

/-- A run of the simulation: the state reached from a fresh start with the
given parameters after an arbitrary interleaving of spawn-timer firings and
animation ticks. -/
def runState (numRows : ℤ) (viewportWidth : ℚ) (cap : Option ℤ) (total : ℤ)
    (events : List SimEvent) : SimState :=
  runEvents (mkEnv numRows viewportWidth)
    (initSimState total (initBins (resizeCanvas numRows viewportWidth) numRows cap)) events

/-! ## Session controller (lines 789-930) -/

/-- The values the session controller reads from the host page: the three
parsed numeric inputs (`none` = `NaN`). -/
structure Inputs where
  rows : Option ℤ
  balls : Option ℤ
  cap : Option ℤ
  deriving DecidableEq

/-- `validateInputs` (lines 789-803): the three range checks in source order;
on failure the alert message is returned, on success the three validated
values. -/
def validateInputs (numRows numBalls binCapacity : Option ℤ) :
    Except String (ℤ × ℤ × ℤ) :=
  match numRows with
  | none => .error "Number of rows must be between 1 and 30."
  | some r =>
    if r < 1 ∨ r > 30 then .error "Number of rows must be between 1 and 30."
    else
      match numBalls with
      | none => .error "Number of balls must be between 1 and 5000."
      | some nb =>
        if nb < 1 ∨ nb > 5000 then .error "Number of balls must be between 1 and 5000."
        else
          match binCapacity with
          | none => .error "Bin capacity must be between 1 and 1000."
          | some bc =>
            if bc < 1 ∨ bc > 1000 then .error "Bin capacity must be between 1 and 1000."
            else .ok (r, nb, bc)

/-- The whole mutable state of the page script: simulation variables,
scheduler handles (`true` = handle set) and the enablement of the five
controls. -/
structure AppState where
  numRowsVar : Option ℤ
  ballsToDropTotal : Option ℤ
  layout : Layout
  pegs : List Peg
  bins : List Bin
  balls : List Ball
  ballsBeingDropped : ℤ
  animationFrameId : Bool
  dropIntervalId : Bool
  startDisabled : Bool
  numRowsDisabled : Bool
  numBallsDisabled : Bool
  binCapacityDisabled : Bool
  resetDisabled : Bool
  deriving DecidableEq

/-- `stopSimulation` (lines 868-880): cancel the animation frame (harmless on
a null handle), clear the spawn interval if set, re-enable the four input
controls. -/
def stopSimulation (s : AppState) : AppState :=
  let s1 := { s with animationFrameId := false }
  let s2 := if s1.dropIntervalId then { s1 with dropIntervalId := false } else s1
  { s2 with
    startDisabled := false
    numRowsDisabled := false
    numBallsDisabled := false
    binCapacityDisabled := false }

/-- `resetSimulation` (lines 887-909) for a numeric rows input.  (With a
non-numeric rows input the JS layout degenerates to NaN geometry, which the
rational model does not represent; no claim concerns that case.)  The drawing
calls are pure and omitted. -/
def resetSimulation (rows : ℤ) (cap : Option ℤ) (viewportWidth : ℚ)
    (s : AppState) : AppState :=
  let s1 := stopSimulation s
  let L := resizeCanvas rows viewportWidth
  { s1 with
    balls := []
    ballsBeingDropped := 0
    ballsToDropTotal := some 0
    numRowsVar := some rows
    layout := L
    pegs := initPegs L rows
    bins := initBins L rows cap
    startDisabled := false
    numRowsDisabled := false
    numBallsDisabled := false
    binCapacityDisabled := false
    resetDisabled := true }

/-- `startSimulation` (lines 812-861): the synchronous part of a start —
early return while running, assignment of the parsed inputs, validation,
board construction, control disabling, arming of the spawn interval, the
immediate first `tryDropBall`, and the first synchronous `gameLoop` frame.
Returns the new state and the alert message, if any.  `rnd 0` is the jitter
draw of the first ball; the first frame consumes `rnd (n+1)` draws. -/
def startSimulation (inp : Inputs) (viewportWidth : ℚ) (rnd : ℕ → ℚ)
    (s : AppState) : AppState × Option String :=
  if s.animationFrameId then (s, none)
  else
    let s1 := { s with numRowsVar := inp.rows, ballsToDropTotal := inp.balls }
    match validateInputs inp.rows inp.balls inp.cap with
    | .error msg => (s1, some msg)
    | .ok (r, totalBalls, _) =>
      let L := resizeCanvas r viewportWidth
      let pegs := initPegs L r
      let bins := initBins L r inp.cap
      let s2 :=
        { s1 with
          layout := L
          pegs := pegs
          bins := bins
          balls := []
          ballsBeingDropped := 0
          startDisabled := true
          numRowsDisabled := true
          numBallsDisabled := true
          binCapacityDisabled := true
          resetDisabled := false
          dropIntervalId := true }
      -- immediate tryDropBall() call (line 858); ballsDroppedThisSession = 0
      let s3 :=
        if (0 : ℤ) < totalBalls then
          { s2 with balls := [createBall ⟨L, pegs⟩ (rnd 0)], ballsBeingDropped := 1 }
        else { s2 with dropIntervalId := false }
      -- first synchronous gameLoop frame (line 860)
      let env : Env := ⟨L, pegs⟩
      let o := updateBallsAux env (fun n => rnd (n + 1)) s3.balls s3.bins s3.ballsBeingDropped 0
      let s4 := { s3 with balls := o.balls, bins := o.bins, ballsBeingDropped := o.c }
      if 0 < s4.ballsBeingDropped ∨ s4.balls.any (fun b => !b.landed) then
        ({ s4 with animationFrameId := true }, none)
      else
        (stopSimulation s4, none)

/-! ## Lifecycle tags and accounting helpers -/

/-- The lifecycle tag of the spec (§3) in terms of the two flags: `landed`
is terminal, `isSettling` (and not landed) is the transient capture state. -/
inductive LifeTag where
  | falling
  | settling
  | landed
  deriving DecidableEq

def ballTag (b : Ball) : LifeTag :=
  if b.landed then .landed else if b.isSettling then .settling else .falling

/-- The allowed single-tick transitions of the lifecycle tag: from `falling`
anywhere (including staying), `settling` only to `landed`, `landed` only to
itself.  This rules out every backward move and every entry into `settling`
from a non-`falling` state. -/
def tagStep (t t' : LifeTag) : Prop :=
  t = .falling ∨ (t = .settling ∧ t' = .landed) ∨ (t = .landed ∧ t' = .landed)

/-- Balls captured by a bin: `isSettling` is set exactly on capture and never
cleared (a captured ball later also sets `landed`). -/
def capturedCount (l : List Ball) : ℕ :=
  l.countP (fun b => b.isSettling)

/-- Balls that were marked `landed` without being captured: they fell past the
bottom of the canvas. -/
def fallenCount (l : List Ball) : ℕ :=
  l.countP (fun b => b.landed && !b.isSettling)

/-- Balls still in flight: neither captured nor fallen off. -/
def inflightCount (l : List Ball) : ℕ :=
  l.countP (fun b => !b.landed && !b.isSettling)

/-- Total number of balls collected over all bins. -/
def binsTotal (bins : List Bin) : ℕ :=
  (bins.map Bin.count).sum

/-- The driver invariant: the total bin count equals the number of captured
balls, and `ballsBeingDropped` equals the number of balls in flight. -/
def SimInv (s : SimState) : Prop :=
  (binsTotal s.bins : ℤ) = capturedCount s.balls ∧
    s.ballsBeingDropped = inflightCount s.balls

/-- All bins respect their capacity. -/
def BinsOK (bins : List Bin) : Prop :=
  ∀ bin ∈ bins, (bin.count : ℤ) ≤ bin.maxCapacity

/-! ## Concrete fixtures used by counterexamples and witnesses -/

/-- The layout for one peg row on an 820-pixel viewport: 180×166 canvas,
scale factor 1, ball radius 5, peg radius 6. -/
def fixedLayout : Layout := resizeCanvas 1 820

/-- A falling ball whose bottom edge (y + radius = 170) is past the canvas
bottom (166) while its top edge (y - radius = 160) is not. -/
def ballAtBottomEdge : Ball :=
  { x := 90, y := 165, radius := 5, vx := 0, vy := 1, landed := false, isSettling := false }

/-- A falling ball that after one integration step is entirely below the
canvas bottom. -/
def ballBelowCanvas : Ball :=
  { x := 90, y := 172, radius := 5, vx := 0, vy := 0, landed := false, isSettling := false }

def pegAtOrigin : Peg := { x := 0, y := 0, radius := 6 }

/-- A falling ball overlapping `pegAtOrigin` from above (vertical offset -8,
combined radius 11). -/
def ballAbovePeg : Ball :=
  { x := 0, y := -8, radius := 5, vx := 0, vy := 2, landed := false, isSettling := false }

/-- The run environment for one peg row on an 820-pixel viewport. -/
def fixedEnv : Env := mkEnv 1 820

/-- An arbitrary page state before the initial reset. -/
def freshAppState : AppState :=
  { numRowsVar := none, ballsToDropTotal := none, layout := fixedLayout, pegs := [],
    bins := [], balls := [], ballsBeingDropped := 0, animationFrameId := false,
    dropIntervalId := false, startDisabled := false, numRowsDisabled := false,
    numBallsDisabled := false, binCapacityDisabled := false, resetDisabled := false }

/-- The page state after the initial `resetSimulation()` with 2 rows, capacity
100, viewport 820 — in particular `ballsToDropTotal = 0`. -/
def idleAppState : AppState := resetSimulation 2 (some 100) 820 freshAppState

/-- Settling weight of a ball (1 once captured by a bin). -/
def sWeight (b : Ball) : ℤ := if b.isSettling then 1 else 0

/-- In-flight weight of a ball (1 while neither captured nor fallen off). -/
def iWeight (b : Ball) : ℤ := if !b.landed && !b.isSettling then 1 else 0

/-- How one bin may evolve across simulation work: capacity fixed, count
non-decreasing, and the capacity bound preserved. -/
def BinEvol (bin bin' : Bin) : Prop :=
  bin'.maxCapacity = bin.maxCapacity ∧ bin.count ≤ bin'.count ∧
    ((bin.count : ℤ) ≤ bin.maxCapacity → (bin'.count : ℤ) ≤ bin'.maxCapacity)

lemma binEvol_refl (bin : Bin) : BinEvol bin bin := ⟨rfl, le_refl _, id⟩

lemma binEvol_trans {a b c : Bin} (h1 : BinEvol a b) (h2 : BinEvol b c) : BinEvol a c :=
  ⟨h2.1.trans h1.1, h1.2.1.trans h2.2.1, fun h => h2.2.2 (h1.2.2 h)⟩

lemma forall₂_binEvol_refl (l : List Bin) : List.Forall₂ BinEvol l l := by
  induction l with
  | nil => exact List.Forall₂.nil
  | cons a t ih => exact List.Forall₂.cons (binEvol_refl a) ih

lemma forall₂_binEvol_trans {l1 l2 l3 : List Bin} (h1 : List.Forall₂ BinEvol l1 l2)
    (h2 : List.Forall₂ BinEvol l2 l3) : List.Forall₂ BinEvol l1 l3 := by
  induction h1 generalizing l3 with
  | nil => cases h2; exact List.Forall₂.nil
  | cons hab htl ih =>
    cases h2 with
    | cons hbc h2tl => exact List.Forall₂.cons (binEvol_trans hab hbc) (ih h2tl)

lemma binsTotal_cons (bin : Bin) (rest : List Bin) :
    binsTotal (bin :: rest) = bin.count + binsTotal rest := rfl

/-! ### Flag preservation through the physics helpers -/

lemma applyBallPhysics_flags (L : Layout) (b : Ball) :
    (applyBallPhysics L b).landed = b.landed ∧
      (applyBallPhysics L b).isSettling = b.isSettling := ⟨rfl, rfl⟩

lemma wallHorizontal_flags (L : Layout) (b : Ball) :
    (wallHorizontal L b).landed = b.landed ∧
      (wallHorizontal L b).isSettling = b.isSettling ∧
      (wallHorizontal L b).y = b.y := by
  simp only [wallHorizontal]
  split_ifs <;> exact ⟨rfl, rfl, rfl⟩

lemma wallTop_flags (L : Layout) (b : Ball) :
    (wallTop L b).landed = b.landed ∧ (wallTop L b).isSettling = b.isSettling := by
  unfold wallTop
  split_ifs <;> simp

lemma wallBottom_spec (L : Layout) (c : ℤ) (b : Ball) :
    (wallBottom L c b).1.isSettling = b.isSettling ∧
      (((wallBottom L c b).1 = b ∧ (wallBottom L c b).2 = c) ∨
        (b.landed = false ∧ b.isSettling = false ∧
          (wallBottom L c b).1.landed = true ∧ (wallBottom L c b).2 = c - 1)) := by
  unfold wallBottom
  split_ifs with h
  · exact ⟨rfl, Or.inr ⟨h.2.2, h.2.1, rfl, rfl⟩⟩
  · exact ⟨rfl, Or.inl ⟨rfl, rfl⟩⟩

/-- Combined wall-collision behaviour: `isSettling` is never touched, and the
ball either keeps its `landed` flag (counter untouched) or goes from falling
to landed with the counter decremented. -/
lemma handleBallWallCollisions_spec (L : Layout) (c : ℤ) (b : Ball) :
    (handleBallWallCollisions L c b).1.isSettling = b.isSettling ∧
      (((handleBallWallCollisions L c b).1.landed = b.landed ∧
          (handleBallWallCollisions L c b).2 = c) ∨
        (b.landed = false ∧ b.isSettling = false ∧
          (handleBallWallCollisions L c b).1.landed = true ∧
          (handleBallWallCollisions L c b).2 = c - 1)) := by
  unfold handleBallWallCollisions
  have h1 := wallHorizontal_flags L b
  have h2 := wallBottom_spec L c (wallHorizontal L b)
  have h3 := wallTop_flags L (wallBottom L c (wallHorizontal L b)).1
  refine ⟨by rw [h3.2, h2.1, h1.2.1], ?_⟩
  rcases h2.2 with ⟨heq, hc⟩ | ⟨hl, hs, hland, hc⟩
  · refine Or.inl ⟨?_, hc⟩
    rw [h3.1, heq, h1.1]
  · refine Or.inr ⟨?_, ?_, ?_, hc⟩
    · rw [← h1.1]; exact hl
    · rw [← h1.2.1]; exact hs
    · rw [h3.1, hland]

lemma pegCollideStep_flags (L : Layout) (rnd : ℕ → ℚ) (acc : Ball × ℕ) (peg : Peg) :
    (pegCollideStep L rnd acc peg).1.landed = acc.1.landed ∧
      (pegCollideStep L rnd acc peg).1.isSettling = acc.1.isSettling := by
  simp only [pegCollideStep]
  split_ifs <;> exact ⟨rfl, rfl⟩

lemma handleBallPegCollisions_flags (L : Layout) (pegs : List Peg) (rnd : ℕ → ℚ) :
    ∀ (b : Ball) (k : ℕ),
      (handleBallPegCollisions L pegs rnd k b).1.landed = b.landed ∧
        (handleBallPegCollisions L pegs rnd k b).1.isSettling = b.isSettling := by
  induction pegs with
  | nil => intro b k; exact ⟨rfl, rfl⟩
  | cons p t ih =>
    intro b k
    have hstep := pegCollideStep_flags L rnd (b, k) p
    have := ih (pegCollideStep L rnd (b, k) p).1 (pegCollideStep L rnd (b, k) p).2
    unfold handleBallPegCollisions at this ⊢
    simp only [List.foldl_cons]
    exact ⟨this.1.trans hstep.1, this.2.trans hstep.2⟩

/-- Behaviour of the bin-search loop: the bins evolve pointwise (capacity
fixed, counts non-decreasing, bound kept), the ball's `landed` flag is
untouched, and either the ball is captured — exactly one count incremented,
counter decremented — or nothing changes. -/
lemma binLoop_spec (L : Layout) (rnd : ℕ → ℚ) (b : Ball) (c : ℤ) (k : ℕ) :
    ∀ bins : List Bin,
      List.Forall₂ BinEvol bins (binLoop L rnd b c k bins).bins ∧
      (binLoop L rnd b c k bins).ball.landed = b.landed ∧
      (((binLoop L rnd b c k bins).ball.isSettling = true ∧
          binsTotal (binLoop L rnd b c k bins).bins = binsTotal bins + 1 ∧
          (binLoop L rnd b c k bins).c = c - 1) ∨
        ((binLoop L rnd b c k bins).ball.isSettling = b.isSettling ∧
          (binLoop L rnd b c k bins).bins = bins ∧
          (binLoop L rnd b c k bins).c = c)) := by
  intro bins
  induction bins with
  | nil => exact ⟨List.Forall₂.nil, rfl, Or.inr ⟨rfl, rfl, rfl⟩⟩
  | cons bin rest ih =>
    simp only [binLoop]
    split_ifs with hmatch hcap hvx hrnd
    -- capture into this bin
    · refine ⟨List.Forall₂.cons ?_ (forall₂_binEvol_refl rest), rfl, Or.inl ⟨rfl, ?_, rfl⟩⟩
      · exact ⟨rfl, Nat.le_succ _, fun _ => by push_cast at hcap ⊢; omega⟩
      · show binsTotal ({ bin with count := bin.count + 1 } :: rest) = _
        simp only [binsTotal_cons]; omega
    -- bin full: bounce (three random/velocity subcases), bins unchanged
    · exact ⟨forall₂_binEvol_refl _, rfl, Or.inr ⟨rfl, rfl, rfl⟩⟩
    · exact ⟨forall₂_binEvol_refl _, rfl, Or.inr ⟨rfl, rfl, rfl⟩⟩
    · exact ⟨forall₂_binEvol_refl _, rfl, Or.inr ⟨rfl, rfl, rfl⟩⟩
    -- no match: recurse on the remaining bins
    · refine ⟨List.Forall₂.cons (binEvol_refl bin) ih.1, ih.2.1, ?_⟩
      rcases ih.2.2 with ⟨hset, htot, hc⟩ | ⟨hset, hbins, hc⟩
      · refine Or.inl ⟨hset, ?_, hc⟩
        show binsTotal (bin :: (binLoop L rnd b c k rest).bins) = _
        simp only [binsTotal_cons, htot]; omega
      · refine Or.inr ⟨hset, ?_, hc⟩
        show bin :: (binLoop L rnd b c k rest).bins = bin :: rest
        rw [hbins]

/-- Same characterization for the full bin-interaction step. -/
lemma handleBallBinInteractions_spec (L : Layout) (rnd : ℕ → ℚ) (bins : List Bin)
    (c : ℤ) (k : ℕ) (b : Ball) :
    List.Forall₂ BinEvol bins (handleBallBinInteractions L rnd bins c k b).bins ∧
      (handleBallBinInteractions L rnd bins c k b).ball.landed = b.landed ∧
      (((handleBallBinInteractions L rnd bins c k b).ball.isSettling = true ∧
          binsTotal (handleBallBinInteractions L rnd bins c k b).bins = binsTotal bins + 1 ∧
          (handleBallBinInteractions L rnd bins c k b).c = c - 1) ∨
        ((handleBallBinInteractions L rnd bins c k b).ball.isSettling = b.isSettling ∧
          (handleBallBinInteractions L rnd bins c k b).bins = bins ∧
          (handleBallBinInteractions L rnd bins c k b).c = c)) := by
  match bins with
  | [] => exact ⟨List.Forall₂.nil, rfl, Or.inr ⟨rfl, rfl, rfl⟩⟩
  | bin0 :: rest =>
    simp only [handleBallBinInteractions]
    split_ifs with hguard hband
    · exact ⟨forall₂_binEvol_refl _, rfl, Or.inr ⟨rfl, rfl, rfl⟩⟩
    · exact binLoop_spec L rnd b c k (bin0 :: rest)
    · exact ⟨forall₂_binEvol_refl _, rfl, Or.inr ⟨rfl, rfl, rfl⟩⟩

lemma ballTag_landed {b : Ball} (h : b.landed = true) : ballTag b = .landed := by
  simp [ballTag, h]

lemma ballTag_settling {b : Ball} (hl : b.landed = false) (hs : b.isSettling = true) :
    ballTag b = .settling := by simp [ballTag, hl, hs]

lemma ballTag_falling {b : Ball} (hl : b.landed = false) (hs : b.isSettling = false) :
    ballTag b = .falling := by simp [ballTag, hl, hs]

/-! ### Unfolding equations for the per-ball tick body -/

lemma updateBall_of_landed (env : Env) (rnd : ℕ → ℚ) (bins : List Bin) (c : ℤ) (k : ℕ)
    {b : Ball} (h : b.landed = true) :
    updateBall env rnd bins c k b = ⟨bins, b, c, k⟩ := by
  simp only [updateBall, h, if_true]

lemma updateBall_of_settling (env : Env) (rnd : ℕ → ℚ) (bins : List Bin) (c : ℤ) (k : ℕ)
    {b : Ball} (hl : b.landed = false) (hs : b.isSettling = true) :
    updateBall env rnd bins c k b = ⟨bins, { b with landed := true }, c, k⟩ := by
  simp only [updateBall, hl, Bool.false_eq_true, if_false, hs, if_true]

/-- If the wall step left the ball landed (it fell past the bottom), the peg
and bin steps are skipped for this tick. -/
lemma updateBall_of_fell (env : Env) (rnd : ℕ → ℚ) (bins : List Bin) (c : ℤ) (k : ℕ)
    {b : Ball} (hl : b.landed = false) (hs : b.isSettling = false)
    (hpl : (handleBallWallCollisions env.layout c (applyBallPhysics env.layout b)).1.landed
      = true) :
    updateBall env rnd bins c k b =
      ⟨bins, (handleBallWallCollisions env.layout c (applyBallPhysics env.layout b)).1,
        (handleBallWallCollisions env.layout c (applyBallPhysics env.layout b)).2, k⟩ := by
  simp only [updateBall, hl, Bool.false_eq_true, if_false, hs, hpl, if_true]

lemma updateBall_of_flight (env : Env) (rnd : ℕ → ℚ) (bins : List Bin) (c : ℤ) (k : ℕ)
    {b : Ball} (hl : b.landed = false) (hs : b.isSettling = false)
    (hpl : (handleBallWallCollisions env.layout c (applyBallPhysics env.layout b)).1.landed
      = false) :
    updateBall env rnd bins c k b =
      handleBallBinInteractions env.layout rnd bins
        (handleBallWallCollisions env.layout c (applyBallPhysics env.layout b)).2
        (handleBallPegCollisions env.layout env.pegs rnd k
          (handleBallWallCollisions env.layout c (applyBallPhysics env.layout b)).1).2
        (handleBallPegCollisions env.layout env.pegs rnd k
          (handleBallWallCollisions env.layout c (applyBallPhysics env.layout b)).1).1 := by
  simp only [updateBall, hl, Bool.false_eq_true, if_false, hs, hpl]

/-- Per-ball tick behaviour: the lifecycle tag makes one legal step, the bins
evolve pointwise, the total bin count moves exactly with the ball's captured
weight, and the active-ball counter moves exactly with the ball's in-flight
weight. -/
lemma updateBall_spec (env : Env) (rnd : ℕ → ℚ) (bins : List Bin) (c : ℤ) (k : ℕ)
    (b : Ball) :
    tagStep (ballTag b) (ballTag (updateBall env rnd bins c k b).ball) ∧
      List.Forall₂ BinEvol bins (updateBall env rnd bins c k b).bins ∧
      (binsTotal (updateBall env rnd bins c k b).bins : ℤ) - binsTotal bins =
        sWeight (updateBall env rnd bins c k b).ball - sWeight b ∧
      (updateBall env rnd bins c k b).c - c =
        iWeight (updateBall env rnd bins c k b).ball - iWeight b := by
  by_cases hL : b.landed = true
  · -- landed balls are skipped
    rw [updateBall_of_landed env rnd bins c k hL]
    exact ⟨Or.inr (Or.inr ⟨ballTag_landed hL, ballTag_landed hL⟩),
      forall₂_binEvol_refl _, by simp, by simp⟩
  · rw [Bool.not_eq_true] at hL
    by_cases hS : b.isSettling = true
    · -- settling balls are finalized to landed
      rw [updateBall_of_settling env rnd bins c k hL hS]
      refine ⟨Or.inr (Or.inl ⟨ballTag_settling hL hS, ballTag_landed rfl⟩),
        forall₂_binEvol_refl _, ?_, ?_⟩
      · simp [sWeight, hS]
      · simp [iWeight, hS]
    · rw [Bool.not_eq_true] at hS
      have htb : ballTag b = .falling := ballTag_falling hL hS
      have hphys := applyBallPhysics_flags env.layout b
      have hw := handleBallWallCollisions_spec env.layout c (applyBallPhysics env.layout b)
      have hps : (handleBallWallCollisions env.layout c
          (applyBallPhysics env.layout b)).1.isSettling = false := by
        rw [hw.1, hphys.2, hS]
      by_cases hpl :
          (handleBallWallCollisions env.layout c (applyBallPhysics env.layout b)).1.landed = true
      · -- the ball fell off the bottom: remaining steps skipped
        rw [updateBall_of_fell env rnd bins c k hL hS hpl]
        have hc2 : (handleBallWallCollisions env.layout c
            (applyBallPhysics env.layout b)).2 = c - 1 := by
          rcases hw.2 with ⟨hsame, _⟩ | ⟨_, _, _, hc2⟩
          · rw [hphys.1, hL] at hsame; rw [hsame] at hpl; exact absurd hpl (by simp)
          · exact hc2
        refine ⟨Or.inl htb, forall₂_binEvol_refl _, ?_, ?_⟩
        · simp [sWeight, hps, hS]
        · rw [hc2]; simp [iWeight, hps, hpl, hS, hL]
      · -- walls kept the ball in flight: pegs then bins
        rw [Bool.not_eq_true] at hpl
        rw [updateBall_of_flight env rnd bins c k hL hS hpl]
        have hc2 : (handleBallWallCollisions env.layout c
            (applyBallPhysics env.layout b)).2 = c := by
          rcases hw.2 with ⟨_, hc2⟩ | ⟨_, _, hland, _⟩
          · exact hc2
          · rw [hland] at hpl; exact absurd hpl (by simp)
        have hqflags := handleBallPegCollisions_flags env.layout env.pegs rnd
          (handleBallWallCollisions env.layout c (applyBallPhysics env.layout b)).1 k
        have hql : (handleBallPegCollisions env.layout env.pegs rnd k
            (handleBallWallCollisions env.layout c (applyBallPhysics env.layout b)).1).1.landed
            = false := by rw [hqflags.1, hpl]
        have hqs : (handleBallPegCollisions env.layout env.pegs rnd k
            (handleBallWallCollisions env.layout c
              (applyBallPhysics env.layout b)).1).1.isSettling = false := by
          rw [hqflags.2, hps]
        have hbin := handleBallBinInteractions_spec env.layout rnd bins
          (handleBallWallCollisions env.layout c (applyBallPhysics env.layout b)).2
          (handleBallPegCollisions env.layout env.pegs rnd k
            (handleBallWallCollisions env.layout c (applyBallPhysics env.layout b)).1).2
          (handleBallPegCollisions env.layout env.pegs rnd k
            (handleBallWallCollisions env.layout c (applyBallPhysics env.layout b)).1).1
        set O := handleBallBinInteractions env.layout rnd bins
          (handleBallWallCollisions env.layout c (applyBallPhysics env.layout b)).2
          (handleBallPegCollisions env.layout env.pegs rnd k
            (handleBallWallCollisions env.layout c (applyBallPhysics env.layout b)).1).2
          (handleBallPegCollisions env.layout env.pegs rnd k
            (handleBallWallCollisions env.layout c (applyBallPhysics env.layout b)).1).1 with hO
        have holanded : O.ball.landed = false := by rw [hbin.2.1, hql]
        have hswb : sWeight b = 0 := by simp [sWeight, hS]
        have hiwb : iWeight b = 1 := by simp [iWeight, hS, hL]
        refine ⟨Or.inl htb, hbin.1, ?_, ?_⟩
        · rcases hbin.2.2 with ⟨hset, htot, _⟩ | ⟨hset, hbins, _⟩
          · have hsw : sWeight O.ball = 1 := by simp [sWeight, hset]
            rw [htot, hsw, hswb]; push_cast; ring
          · rw [hqs] at hset
            have hsw : sWeight O.ball = 0 := by simp [sWeight, hset]
            rw [hbins, hsw, hswb]; ring
        · rcases hbin.2.2 with ⟨hset, _, hc⟩ | ⟨hset, _, hc⟩
          · have hiw : iWeight O.ball = 0 := by simp [iWeight, hset]
            rw [hc, hc2, hiw, hiwb]; ring
          · rw [hqs] at hset
            have hiw : iWeight O.ball = 1 := by simp [iWeight, hset, holanded]
            rw [hc, hc2, hiw, hiwb]; ring

lemma capturedCount_cons (b : Ball) (l : List Ball) :
    (capturedCount (b :: l) : ℤ) = sWeight b + capturedCount l := by
  cases hb : b.isSettling <;>
    · simp [capturedCount, List.countP_cons, sWeight, hb]
      try push_cast
      try ring

lemma inflightCount_cons (b : Ball) (l : List Ball) :
    (inflightCount (b :: l) : ℤ) = iWeight b + inflightCount l := by
  cases hb : b.isSettling <;> cases hl : b.landed <;>
    · simp [inflightCount, List.countP_cons, iWeight, hb, hl]
      try push_cast
      try ring

/-- One tick over a ball list: tags step legally per position, bins evolve
pointwise, and the changes of the total bin count and of the counter equal the
changes of the captured and in-flight ball counts. -/
lemma updateBallsAux_spec (env : Env) (rnd : ℕ → ℚ) :
    ∀ (balls : List Ball) (bins : List Bin) (c : ℤ) (k : ℕ),
      List.Forall₂ (fun b b' => tagStep (ballTag b) (ballTag b')) balls
        (updateBallsAux env rnd balls bins c k).balls ∧
      List.Forall₂ BinEvol bins (updateBallsAux env rnd balls bins c k).bins ∧
      (binsTotal (updateBallsAux env rnd balls bins c k).bins : ℤ) - binsTotal bins =
        (capturedCount (updateBallsAux env rnd balls bins c k).balls : ℤ) -
          capturedCount balls ∧
      (updateBallsAux env rnd balls bins c k).c - c =
        (inflightCount (updateBallsAux env rnd balls bins c k).balls : ℤ) -
          inflightCount balls := by
  intro balls
  induction balls with
  | nil =>
    intro bins c k
    exact ⟨List.Forall₂.nil, forall₂_binEvol_refl _, by simp [updateBallsAux],
      by simp [updateBallsAux]⟩
  | cons b bs ih =>
    intro bins c k
    have hstep := updateBall_spec env rnd bins c k b
    have hrest := ih (updateBall env rnd bins c k b).bins
      (updateBall env rnd bins c k b).c (updateBall env rnd bins c k b).k
    simp only [updateBallsAux]
    refine ⟨List.Forall₂.cons hstep.1 hrest.1,
      forall₂_binEvol_trans hstep.2.1 hrest.2.1, ?_, ?_⟩
    · have h1 := hstep.2.2.1
      have h2 := hrest.2.2.1
      rw [capturedCount_cons, capturedCount_cons]
      omega
    · have h1 := hstep.2.2.2
      have h2 := hrest.2.2.2
      rw [inflightCount_cons, inflightCount_cons]
      omega

/-! ### Run-level invariants -/

lemma simInv_updateBalls (env : Env) (rnd : ℕ → ℚ) (s : SimState) (h : SimInv s) :
    SimInv (updateBalls env rnd s) := by
  have hs := updateBallsAux_spec env rnd s.balls s.bins s.ballsBeingDropped 0
  constructor
  · show (binsTotal (updateBallsAux env rnd s.balls s.bins s.ballsBeingDropped 0).bins : ℤ) =
      capturedCount (updateBallsAux env rnd s.balls s.bins s.ballsBeingDropped 0).balls
    have h1 := hs.2.2.1
    have h2 := h.1
    omega
  · show (updateBallsAux env rnd s.balls s.bins s.ballsBeingDropped 0).c =
      (inflightCount (updateBallsAux env rnd s.balls s.bins s.ballsBeingDropped 0).balls : ℤ)
    have h1 := hs.2.2.2
    have h2 := h.2
    omega

lemma createBall_flags (env : Env) (u : ℚ) :
    (createBall env u).landed = false ∧ (createBall env u).isSettling = false := ⟨rfl, rfl⟩

lemma simInv_tryDropBall (env : Env) (u : ℚ) (s : SimState) (h : SimInv s) :
    SimInv (tryDropBall env u s) := by
  unfold tryDropBall
  split_ifs with hlt
  · have hflag1 := (createBall_flags env u).1
    have hflag2 := (createBall_flags env u).2
    refine ⟨?_, ?_⟩
    · show (binsTotal s.bins : ℤ) = capturedCount (s.balls ++ [createBall env u])
      rw [h.1]
      simp [capturedCount, List.countP_append, List.countP_cons, hflag2]
    · show s.ballsBeingDropped + 1 = (inflightCount (s.balls ++ [createBall env u]) : ℤ)
      rw [h.2]
      simp only [inflightCount, List.countP_append, List.countP_cons, List.countP_nil,
        hflag1, hflag2]
      norm_num
  · exact h

lemma simInv_applyEvent (env : Env) (s : SimState) (e : SimEvent) (h : SimInv s) :
    SimInv (applyEvent env s e) := by
  cases e with
  | spawn u => exact simInv_tryDropBall env u s h
  | tick rnd => exact simInv_updateBalls env rnd s h

lemma simInv_runEvents (env : Env) (events : List SimEvent) :
    ∀ s : SimState, SimInv s → SimInv (runEvents env s events) := by
  induction events with
  | nil => intro s h; exact h
  | cons e rest ih =>
    intro s h
    exact ih (applyEvent env s e) (simInv_applyEvent env s e h)

lemma initBins_count_eq_zero (L : Layout) (numRows : ℤ) (cap : Option ℤ) :
    ∀ bin ∈ initBins L numRows cap, bin.count = 0 := by
  intro bin hbin
  simp only [initBins, List.mem_map, List.mem_range] at hbin
  obtain ⟨i, -, rfl⟩ := hbin
  rfl

lemma binsTotal_eq_zero_of_counts {bins : List Bin} (h : ∀ bin ∈ bins, bin.count = 0) :
    binsTotal bins = 0 := by
  induction bins with
  | nil => rfl
  | cons a t ih =>
    rw [binsTotal_cons, h a (by simp), ih fun b hb => h b (by simp [hb])]

lemma binsTotal_initBins (L : Layout) (numRows : ℤ) (cap : Option ℤ) :
    binsTotal (initBins L numRows cap) = 0 :=
  binsTotal_eq_zero_of_counts (initBins_count_eq_zero L numRows cap)

lemma simInv_runState (numRows : ℤ) (W : ℚ) (cap : Option ℤ) (total : ℤ)
    (events : List SimEvent) : SimInv (runState numRows W cap total events) := by
  apply simInv_runEvents
  constructor
  · show (binsTotal (initBins (resizeCanvas numRows W) numRows cap) : ℤ) =
      capturedCount ([] : List Ball)
    rw [binsTotal_initBins]
    rfl
  · rfl

lemma bins_evol_updateBalls (env : Env) (rnd : ℕ → ℚ) (s : SimState) :
    List.Forall₂ BinEvol s.bins (updateBalls env rnd s).bins := by
  have hs := (updateBallsAux_spec env rnd s.balls s.bins s.ballsBeingDropped 0).2.1
  exact hs

lemma bins_tryDropBall (env : Env) (u : ℚ) (s : SimState) :
    (tryDropBall env u s).bins = s.bins := by
  unfold tryDropBall
  split_ifs <;> rfl

lemma bins_evol_applyEvent (env : Env) (s : SimState) (e : SimEvent) :
    List.Forall₂ BinEvol s.bins (applyEvent env s e).bins := by
  cases e with
  | spawn u => rw [applyEvent, bins_tryDropBall]; exact forall₂_binEvol_refl _
  | tick rnd => exact bins_evol_updateBalls env rnd s

lemma bins_evol_runEvents (env : Env) (events : List SimEvent) :
    ∀ s : SimState, List.Forall₂ BinEvol s.bins (runEvents env s events).bins := by
  induction events with
  | nil => intro s; exact forall₂_binEvol_refl _
  | cons e rest ih =>
    intro s
    exact forall₂_binEvol_trans (bins_evol_applyEvent env s e) (ih (applyEvent env s e))

lemma binsOK_of_evol {l l' : List Bin} (h : List.Forall₂ BinEvol l l') (hok : BinsOK l) :
    BinsOK l' := by
  induction h with
  | nil => exact hok
  | cons hab htl ih =>
    intro bin hbin
    rcases List.mem_cons.1 hbin with rfl | hmem
    · exact hab.2.2 (hok _ (List.mem_cons_self _ _))
    · exact ih (fun x hx => hok x (List.mem_cons_of_mem _ hx)) bin hmem

lemma jsOr100_some {n : ℤ} (h : n ≠ 0) : jsOr100 (some n) = n := by
  simp [jsOr100, h]

lemma initBins_maxCapacity (L : Layout) (numRows : ℤ) (cap : Option ℤ) :
    ∀ bin ∈ initBins L numRows cap, bin.maxCapacity = jsOr100 cap := by
  intro bin hbin
  simp only [initBins, List.mem_map, List.mem_range] at hbin
  obtain ⟨i, -, rfl⟩ := hbin
  rfl

lemma binsOK_initBins (L : Layout) (numRows : ℤ) (cap : Option ℤ)
    (h : 0 ≤ jsOr100 cap) : BinsOK (initBins L numRows cap) := by
  intro bin hbin
  rw [initBins_count_eq_zero L numRows cap bin hbin,
    initBins_maxCapacity L numRows cap bin hbin]
  exact_mod_cast h

/-- Every ball is in exactly one of the three accounting classes. -/
lemma ball_partition (l : List Ball) :
    capturedCount l + fallenCount l + inflightCount l = l.length := by
  induction l with
  | nil => rfl
  | cons b t ih =>
    simp only [capturedCount, fallenCount, inflightCount, List.countP_cons,
      List.length_cons] at ih ⊢
    cases hb : b.isSettling <;> cases hl : b.landed <;> simp [hb, hl] <;> omega

/-! ### Session-controller normal forms -/

lemma stopSimulation_eq (s : AppState) : stopSimulation s =
    { s with
      animationFrameId := false
      dropIntervalId := false
      startDisabled := false
      numRowsDisabled := false
      numBallsDisabled := false
      binCapacityDisabled := false } := by
  simp only [stopSimulation]
  split_ifs with h
  · rfl
  · rw [Bool.not_eq_true] at h
    cases s
    simp_all

lemma resetSimulation_eq (rows : ℤ) (cap : Option ℤ) (viewportWidth : ℚ) (s : AppState) :
    resetSimulation rows cap viewportWidth s =
      { s with
        numRowsVar := some rows
        ballsToDropTotal := some 0
        layout := resizeCanvas rows viewportWidth
        pegs := initPegs (resizeCanvas rows viewportWidth) rows
        bins := initBins (resizeCanvas rows viewportWidth) rows cap
        balls := []
        ballsBeingDropped := 0
        animationFrameId := false
        dropIntervalId := false
        startDisabled := false
        numRowsDisabled := false
        numBallsDisabled := false
        binCapacityDisabled := false
        resetDisabled := true } := by
  unfold resetSimulation
  rw [stopSimulation_eq]

/-! ### Board-builder counting lemmas -/

lemma pegRow_length (L : Layout) (row : ℕ) : (pegRow L row).length = row + 1 := by
  simp only [pegRow]
  rw [List.length_map, List.length_range]

lemma initPegs_length_mul_two (L : Layout) (numRows : ℤ) :
    (initPegs L numRows).length * 2 = numRows.toNat * (numRows.toNat + 1) := by
  unfold initPegs
  generalize numRows.toNat = n
  induction n with
  | zero => rfl
  | succ m ih =>
    rw [List.range_succ, List.flatMap_append, List.length_append]
    simp only [List.flatMap_cons, List.flatMap_nil, List.append_nil, pegRow_length]
    calc (((List.range m).flatMap (pegRow L)).length + (m + 1)) * 2 =
        ((List.range m).flatMap (pegRow L)).length * 2 + (m + 1) * 2 := by ring
      _ = m * (m + 1) + (m + 1) * 2 := by rw [ih]
      _ = (m + 1) * (m + 1 + 1) := by ring

lemma initPegs_length (L : Layout) (numRows : ℤ) :
    (initPegs L numRows).length = numRows.toNat * (numRows.toNat + 1) / 2 := by
  have h := initPegs_length_mul_two L numRows
  omega

lemma initBins_length (L : Layout) (numRows : ℤ) (cap : Option ℤ) :
    (initBins L numRows cap).length = (numRows + 1).toNat := by
  simp only [initBins]
  rw [List.length_map, List.length_range]

lemma initBins_width (L : Layout) (numRows : ℤ) (cap : Option ℤ) :
    ∀ bin ∈ initBins L numRows cap, bin.width = L.currentPegSpacingX := by
  intro bin hbin
  simp only [initBins, List.mem_map, List.mem_range] at hbin
  obtain ⟨i, -, rfl⟩ := hbin
  rfl

/-- Concrete evaluation of the fixed layout (Batteries marks rational
arithmetic irreducible, so closed rational computations are established by
`norm_num` rather than kernel reduction). -/
lemma fixedLayout_eq : fixedLayout =
    { canvasWidth := 180, canvasHeight := 166, scaleFactor := 1,
      currentPegSpacingX := 40, currentPegSpacingY := 30, currentStartYOffset := 30,
      currentPegRadius := 6, currentBallRadius := 5, currentDrawnBinHeight := 60,
      currentSpaceBelowPegs := 30, currentBottomPadding := 40 } := by
  unfold fixedLayout resizeCanvas computeLayout
  norm_num [BASE_PEG_SPACING_X, BASE_PEG_RADIUS, BASE_PEG_SPACING_Y, BASE_START_Y_OFFSET,
    BASE_BALL_RADIUS, BASE_DRAWN_BIN_HEIGHT, BASE_SPACE_BELOW_PEGS, BASE_BOTTOM_PADDING,
    CANVAS_MARGIN_LEFT, CANVAS_MARGIN_RIGHT]

lemma fixedEnv_layout : fixedEnv.layout = fixedLayout := rfl

/-! ## Claims -/

/-- C7: for every row count R in [1,30], the board builder produces exactly
R·(R+1)/2 pegs — row r (0-indexed) holding r+1 pegs — and exactly R+1 bins,
every bin with count 0 and width equal to the horizontal peg pitch. -/
theorem board_builder_counts (R : ℤ) (W : ℚ) (cap : Option ℤ)
    (h1 : 1 ≤ R) (h2 : R ≤ 30) :
    (initPegs (resizeCanvas R W) R).length = R.toNat * (R.toNat + 1) / 2 ∧
      (∀ r : ℕ, (pegRow (resizeCanvas R W) r).length = r + 1) ∧
      (initBins (resizeCanvas R W) R cap).length = R.toNat + 1 ∧
      ∀ bin ∈ initBins (resizeCanvas R W) R cap,
        bin.count = 0 ∧ bin.width = (resizeCanvas R W).currentPegSpacingX := by
  refine ⟨initPegs_length _ _, fun r => pegRow_length _ r, ?_,
    fun bin hbin => ⟨initBins_count_eq_zero _ _ _ bin hbin, initBins_width _ _ _ bin hbin⟩⟩
  rw [initBins_length]
  omega

theorem board_builder_counts_witness :
    (initPegs (resizeCanvas 3 820) 3).length = (3 : ℤ).toNat * ((3 : ℤ).toNat + 1) / 2 ∧
      (∀ r : ℕ, (pegRow (resizeCanvas 3 820) r).length = r + 1) ∧
      (initBins (resizeCanvas 3 820) 3 (some 100)).length = (3 : ℤ).toNat + 1 ∧
      ∀ bin ∈ initBins (resizeCanvas 3 820) 3 (some 100),
        bin.count = 0 ∧ bin.width = (resizeCanvas 3 820).currentPegSpacingX :=
  board_builder_counts 3 820 (some 100) (by decide) (by decide)

/-- C8: geometry layout — final width is the minimum of the ideal content
width (R+3.5)·basePitch and the available width W; the pitch is that width
over R+3.5 unless it falls below 3× the base peg radius, in which case the
pitch is exactly that minimum and the width is recomputed from it;
scaleFactor = pitch/basePitch and every scaled quantity is its base value
times scaleFactor.  (Purity is immediate: `computeLayout` is a function of
R and W alone.) -/
theorem geometry_layout_formulas (R : ℤ) (W : ℚ) :
    (computeLayout R W).currentPegSpacingX =
        (if min (((R : ℚ) + 7/2) * BASE_PEG_SPACING_X) W / ((R : ℚ) + 7/2) <
            BASE_PEG_RADIUS * 3
          then BASE_PEG_RADIUS * 3
          else min (((R : ℚ) + 7/2) * BASE_PEG_SPACING_X) W / ((R : ℚ) + 7/2)) ∧
      (computeLayout R W).canvasWidth =
        (if min (((R : ℚ) + 7/2) * BASE_PEG_SPACING_X) W / ((R : ℚ) + 7/2) <
            BASE_PEG_RADIUS * 3
          then ((R : ℚ) + 7/2) * (BASE_PEG_RADIUS * 3)
          else min (((R : ℚ) + 7/2) * BASE_PEG_SPACING_X) W) ∧
      (computeLayout R W).scaleFactor =
        (computeLayout R W).currentPegSpacingX / BASE_PEG_SPACING_X ∧
      (computeLayout R W).currentPegSpacingY =
        BASE_PEG_SPACING_Y * (computeLayout R W).scaleFactor ∧
      (computeLayout R W).currentStartYOffset =
        BASE_START_Y_OFFSET * (computeLayout R W).scaleFactor ∧
      (computeLayout R W).currentPegRadius =
        BASE_PEG_RADIUS * (computeLayout R W).scaleFactor ∧
      (computeLayout R W).currentBallRadius =
        BASE_BALL_RADIUS * (computeLayout R W).scaleFactor ∧
      (computeLayout R W).currentDrawnBinHeight =
        BASE_DRAWN_BIN_HEIGHT * (computeLayout R W).scaleFactor ∧
      (computeLayout R W).currentSpaceBelowPegs =
        BASE_SPACE_BELOW_PEGS * (computeLayout R W).scaleFactor ∧
      (computeLayout R W).currentBottomPadding =
        BASE_BOTTOM_PADDING * (computeLayout R W).scaleFactor ∧
      resizeCanvas R (W + CANVAS_MARGIN_LEFT + CANVAS_MARGIN_RIGHT) = computeLayout R W := by
  have hsel : (if ((R : ℚ) + 7/2) * BASE_PEG_SPACING_X > W then W
      else ((R : ℚ) + 7/2) * BASE_PEG_SPACING_X) =
      min (((R : ℚ) + 7/2) * BASE_PEG_SPACING_X) W := by
    rw [min_def]
    split_ifs <;> first | rfl | linarith
  refine ⟨?_, ?_, rfl, rfl, rfl, rfl, rfl, rfl, rfl, rfl, ?_⟩
  · show (if (if ((R : ℚ) + 7/2) * BASE_PEG_SPACING_X > W then W
        else ((R : ℚ) + 7/2) * BASE_PEG_SPACING_X) / ((R : ℚ) + 7/2) <
          BASE_PEG_RADIUS * 3
      then BASE_PEG_RADIUS * 3
      else (if ((R : ℚ) + 7/2) * BASE_PEG_SPACING_X > W then W
        else ((R : ℚ) + 7/2) * BASE_PEG_SPACING_X) / ((R : ℚ) + 7/2)) = _
    rw [hsel]
  · show (if (if ((R : ℚ) + 7/2) * BASE_PEG_SPACING_X > W then W
        else ((R : ℚ) + 7/2) * BASE_PEG_SPACING_X) / ((R : ℚ) + 7/2) <
          BASE_PEG_RADIUS * 3
      then ((R : ℚ) + 7/2) * (BASE_PEG_RADIUS * 3)
      else (if ((R : ℚ) + 7/2) * BASE_PEG_SPACING_X > W then W
        else ((R : ℚ) + 7/2) * BASE_PEG_SPACING_X)) = _
    rw [hsel]
  · unfold resizeCanvas
    congr 1
    ring

/-- C9: `stopSimulation` clears both the animation-frame handle and the spawn
interval, and is idempotent; `resetSimulation` (which begins by invoking
`stopSimulation`) likewise clears both handles and two consecutive resets with
the same inputs equal one.  Both are total functions of the state, so neither
can throw. -/
theorem stop_reset_idempotent :
    (∀ s : AppState,
        (stopSimulation s).animationFrameId = false ∧
        (stopSimulation s).dropIntervalId = false ∧
        stopSimulation (stopSimulation s) = stopSimulation s) ∧
      ∀ (rows : ℤ) (cap : Option ℤ) (W : ℚ) (s : AppState),
        (resetSimulation rows cap W s).animationFrameId = false ∧
        (resetSimulation rows cap W s).dropIntervalId = false ∧
        resetSimulation rows cap W (resetSimulation rows cap W s) =
          resetSimulation rows cap W s := by
  constructor
  · intro s
    refine ⟨?_, ?_, ?_⟩ <;> simp [stopSimulation_eq]
  · intro rows cap W s
    refine ⟨?_, ?_, ?_⟩ <;> simp [resetSimulation_eq]

/-- C10: at every reachable state of a run, the active-ball counter
`ballsBeingDropped` equals the number of spawned balls that are neither
captured (`isSettling`) nor landed — it is never negative.  (It is this
equality that the `gameLoop` continuation test `ballsBeingDropped > 0 ||
balls.some(!landed)` reads.) -/
theorem ballsBeingDropped_matches_inflight (numRows : ℤ) (W : ℚ) (cap : Option ℤ)
    (total : ℤ) (events : List SimEvent) :
    (runState numRows W cap total events).ballsBeingDropped =
        inflightCount (runState numRows W cap total events).balls ∧
      0 ≤ (runState numRows W cap total events).ballsBeingDropped := by
  have h := (simInv_runState numRows W cap total events).2
  exact ⟨h, by rw [h]; exact Int.natCast_nonneg _⟩

/-- C1, counterexample: at the first frame of a 1-row, 1-ball run — right
after the initial synchronous spawn, with the ball still in flight — the bins
hold 0 and no ball has fallen off, yet 1 ball has been spawned: the claimed
equation fails mid-run (it only holds once no ball remains in flight). -/
theorem conservation_claim_false :
    binsTotal (runState 1 820 (some 100) 1 [SimEvent.spawn (1/2)]).bins +
      fallenCount (runState 1 820 (some 100) 1 [SimEvent.spawn (1/2)]).balls ≠
      (runState 1 820 (some 100) 1 [SimEvent.spawn (1/2)]).balls.length := by
  decide

/-- C1 (amended): at every tick of a run, the sum over all bins of `count`,
plus the number of balls landed without being captured (fell off-board),
plus the number of balls still in flight, equals the number of balls spawned
so far; equivalently, every spawned ball is accounted exactly once as
captured, fallen off, or in flight. -/
theorem conservation_amended (numRows : ℤ) (W : ℚ) (cap : Option ℤ) (total : ℤ)
    (events : List SimEvent) :
    binsTotal (runState numRows W cap total events).bins +
        fallenCount (runState numRows W cap total events).balls +
        inflightCount (runState numRows W cap total events).balls =
      (runState numRows W cap total events).balls.length := by
  have h1 := (simInv_runState numRows W cap total events).1
  have h2 := ball_partition (runState numRows W cap total events).balls
  omega

/-- C2: within one run (validated capacity), every bin count is monotonically
non-decreasing across any single further event after any sequence of events,
never exceeds `maxCapacity` (which never changes), and once at capacity it is
not incremented by a further arriving ball (the ball is bounced, not
counted). -/
theorem bin_count_monotone_bounded (numRows : ℤ) (W : ℚ) (capVal : ℤ) (total : ℤ)
    (events : List SimEvent) (e : SimEvent) (i : ℕ) (hcap : 1 ≤ capVal)
    (h : i < (runState numRows W (some capVal) total events).bins.length)
    (h' : i < (applyEvent (mkEnv numRows W)
      (runState numRows W (some capVal) total events) e).bins.length) :
    ((runState numRows W (some capVal) total events).bins.get ⟨i, h⟩).count ≤
        ((applyEvent (mkEnv numRows W) (runState numRows W (some capVal) total events)
          e).bins.get ⟨i, h'⟩).count ∧
      (((runState numRows W (some capVal) total events).bins.get ⟨i, h⟩).count : ℤ) ≤
        ((runState numRows W (some capVal) total events).bins.get ⟨i, h⟩).maxCapacity ∧
      ((applyEvent (mkEnv numRows W) (runState numRows W (some capVal) total events)
          e).bins.get ⟨i, h'⟩).maxCapacity =
        ((runState numRows W (some capVal) total events).bins.get ⟨i, h⟩).maxCapacity ∧
      ((((runState numRows W (some capVal) total events).bins.get ⟨i, h⟩).count : ℤ) =
          ((runState numRows W (some capVal) total events).bins.get ⟨i, h⟩).maxCapacity →
        ((applyEvent (mkEnv numRows W) (runState numRows W (some capVal) total events)
          e).bins.get ⟨i, h'⟩).count =
          ((runState numRows W (some capVal) total events).bins.get ⟨i, h⟩).count) := by
  have hok0 : BinsOK (initBins (resizeCanvas numRows W) numRows (some capVal)) :=
    binsOK_initBins _ _ _ (by rw [jsOr100_some (by omega)]; omega)
  have hevolrun := bins_evol_runEvents (mkEnv numRows W) events
    (initSimState total (initBins (resizeCanvas numRows W) numRows (some capVal)))
  have hok : BinsOK (runState numRows W (some capVal) total events).bins :=
    binsOK_of_evol hevolrun hok0
  have hevol := bins_evol_applyEvent (mkEnv numRows W)
    (runState numRows W (some capVal) total events) e
  have hok' : BinsOK (applyEvent (mkEnv numRows W)
      (runState numRows W (some capVal) total events) e).bins :=
    binsOK_of_evol hevol hok
  have hbe := hevol.get h h'
  have hb := hok _ (List.get_mem
    (runState numRows W (some capVal) total events).bins i h)
  have hb' := hok' _ (List.get_mem
    (applyEvent (mkEnv numRows W) (runState numRows W (some capVal) total events) e).bins i h')
  refine ⟨hbe.2.1, hb, hbe.1, fun heq => ?_⟩
  have hmono := hbe.2.1
  have hcap' := hbe.1
  omega

theorem bin_count_monotone_bounded_witness :
    (1 : ℤ) ≤ 2 ∧
      ((runState 1 820 (some 2) 1 []).bins.get ⟨0, by decide⟩).count ≤
        ((applyEvent (mkEnv 1 820) (runState 1 820 (some 2) 1 [])
          (SimEvent.spawn (1/2))).bins.get ⟨0, by decide⟩).count :=
  ⟨by decide,
    (bin_count_monotone_bounded 1 820 2 1 [] (SimEvent.spawn (1/2)) 0 (by decide)
      (by decide) (by decide)).1⟩

/-- C3: a freshly created ball is `falling`, and across any animation tick
every ball's lifecycle tag makes only a legal step: from `falling` it may stay
or move to `settling` or directly to `landed`; from `settling` only to
`landed`; `landed` is terminal.  In particular no ball ever moves backward and
no ball becomes `settling` except from `falling`. -/
theorem lifecycle_tag_steps :
    (∀ (env : Env) (u : ℚ), ballTag (createBall env u) = .falling) ∧
      ∀ (env : Env) (rnd : ℕ → ℚ) (s : SimState) (i : ℕ)
        (h : i < s.balls.length) (h' : i < (updateBalls env rnd s).balls.length),
        tagStep (ballTag (s.balls.get ⟨i, h⟩))
          (ballTag ((updateBalls env rnd s).balls.get ⟨i, h'⟩)) := by
  refine ⟨fun env u => rfl, fun env rnd s i h h' => ?_⟩
  have hf := (updateBallsAux_spec env rnd s.balls s.bins s.ballsBeingDropped 0).1
  exact hf.get h h'

theorem lifecycle_tag_steps_witness :
    0 < (runState 1 820 (some 100) 1 [SimEvent.spawn (1/2)]).balls.length ∧
      tagStep
        (ballTag ((runState 1 820 (some 100) 1 [SimEvent.spawn (1/2)]).balls.get
          ⟨0, by decide⟩))
        (ballTag ((updateBalls (mkEnv 1 820) (fun _ => 1/2)
          (runState 1 820 (some 100) 1 [SimEvent.spawn (1/2)])).balls.get
            ⟨0, by decide⟩)) :=
  ⟨by decide,
    lifecycle_tag_steps.2 (mkEnv 1 820) (fun _ => 1/2)
      (runState 1 820 (some 100) 1 [SimEvent.spawn (1/2)]) 0 (by decide) (by decide)⟩

/-- C4, counterexample: calling start with rows = 0 (invalid), balls = 5,
capacity = 100 from the state after the initial reset produces the validation
message and does not start the run — but it is not true that no simulation
variable changes: `ballsToDropTotal` is overwritten with the parsed input (5)
before validation runs (similarly `NUM_ROWS` is set to 0). -/
theorem start_invalid_mutates_totals :
    (startSimulation ⟨some 0, some 5, some 100⟩ 820 (fun _ => 1/2) idleAppState).2 =
        some "Number of rows must be between 1 and 30." ∧
      (startSimulation ⟨some 0, some 5, some 100⟩ 820 (fun _ => 1/2)
        idleAppState).1.animationFrameId = false ∧
      idleAppState.ballsToDropTotal = some 0 ∧
      (startSimulation ⟨some 0, some 5, some 100⟩ 820 (fun _ => 1/2)
          idleAppState).1.ballsToDropTotal = some 5 ∧
      (startSimulation ⟨some 0, some 5, some 100⟩ 820 (fun _ => 1/2)
          idleAppState).1.ballsToDropTotal ≠ idleAppState.ballsToDropTotal := by
  refine ⟨rfl, rfl, rfl, rfl, ?_⟩
  decide

/-- C4 (amended): if start is invoked while idle with any input outside its
allowed range (or non-numeric), the corresponding human-readable validation
message is produced, the run does not start, no pegs, bins or balls are
created, and control-enablement is unchanged — but the globals `NUM_ROWS` and
`ballsToDropTotal` are assigned the parsed inputs before validation, so those
two simulation variables do change. -/
theorem start_invalid_behavior (inp : Inputs) (W : ℚ) (rnd : ℕ → ℚ) (s : AppState)
    (msg : String) (h0 : s.animationFrameId = false)
    (hv : validateInputs inp.rows inp.balls inp.cap = .error msg) :
    startSimulation inp W rnd s =
      ({ s with numRowsVar := inp.rows, ballsToDropTotal := inp.balls }, some msg) := by
  simp only [startSimulation, h0, Bool.false_eq_true, if_false, hv]

theorem start_invalid_behavior_witness :
    idleAppState.animationFrameId = false ∧
      startSimulation ⟨some 0, some 5, some 100⟩ 820 (fun _ => 1/2) idleAppState =
        ({ idleAppState with numRowsVar := some 0, ballsToDropTotal := some 5 },
          some "Number of rows must be between 1 and 30.") :=
  ⟨by decide,
    start_invalid_behavior ⟨some 0, some 5, some 100⟩ 820 (fun _ => 1/2) idleAppState
      "Number of rows must be between 1 and 30." (by decide) rfl⟩

/-- C5, counterexample: during the wall-collision step, a falling ball whose
bottom edge (y + radius = 170) has passed the canvas bottom (166) — but whose
top edge has not — is NOT marked landed and the active-ball counter is not
decremented: the code tests the top edge (y - radius), not the bottom edge. -/
theorem bottom_edge_claim_false :
    (handleBallWallCollisions fixedLayout 7 ballAtBottomEdge).1.landed = false ∧
      (handleBallWallCollisions fixedLayout 7 ballAtBottomEdge).2 = 7 ∧
      ballAtBottomEdge.y + fixedLayout.currentBallRadius > fixedLayout.canvasHeight ∧
      ballAtBottomEdge.landed = false ∧ ballAtBottomEdge.isSettling = false := by
  rw [fixedLayout_eq]
  unfold handleBallWallCollisions wallHorizontal wallBottom wallTop ballAtBottomEdge
  norm_num

/-- C5 (amended): during a tick's wall-collision step, if a ball that is still
falling has its TOP edge (center y minus radius) pass the drawing-surface
bottom, the ball transitions to landed (lost), the active-ball counter is
decremented, and the remaining per-tick steps (peg collision, bin
interaction) are skipped for it that tick — the ball and counter are exactly
the wall step's output and the bins are untouched. -/
theorem bottom_loss_top_edge (env : Env) (rnd : ℕ → ℚ) (bins : List Bin) (c : ℤ)
    (k : ℕ) (b : Ball) (hl : b.landed = false) (hs : b.isSettling = false)
    (hfall : (applyBallPhysics env.layout b).y - env.layout.currentBallRadius >
      env.layout.canvasHeight) :
    (updateBall env rnd bins c k b).ball.landed = true ∧
      (updateBall env rnd bins c k b).ball =
        (handleBallWallCollisions env.layout c (applyBallPhysics env.layout b)).1 ∧
      (updateBall env rnd bins c k b).bins = bins ∧
      (updateBall env rnd bins c k b).c = c - 1 ∧
      (updateBall env rnd bins c k b).k = k := by
  have hphys := applyBallPhysics_flags env.layout b
  have hh := wallHorizontal_flags env.layout (applyBallPhysics env.layout b)
  have hbot : wallBottom env.layout c (wallHorizontal env.layout
      (applyBallPhysics env.layout b)) =
      ({ wallHorizontal env.layout (applyBallPhysics env.layout b) with landed := true },
        c - 1) := by
    unfold wallBottom
    rw [if_pos]
    exact ⟨by rw [hh.2.2]; exact hfall, by rw [hh.2.1, hphys.2, hs],
      by rw [hh.1, hphys.1, hl]⟩
  have hlanded : (handleBallWallCollisions env.layout c
      (applyBallPhysics env.layout b)).1.landed = true := by
    show (wallTop env.layout (wallBottom env.layout c (wallHorizontal env.layout
      (applyBallPhysics env.layout b))).1).landed = true
    rw [(wallTop_flags _ _).1, hbot]
  have hcc : (handleBallWallCollisions env.layout c
      (applyBallPhysics env.layout b)).2 = c - 1 := by
    show (wallBottom env.layout c (wallHorizontal env.layout
      (applyBallPhysics env.layout b))).2 = c - 1
    rw [hbot]
  rw [updateBall_of_fell env rnd bins c k hl hs hlanded]
  exact ⟨hlanded, rfl, rfl, hcc, rfl⟩

theorem bottom_loss_top_edge_witness :
    ballBelowCanvas.landed = false ∧
      (updateBall fixedEnv (fun _ => 1/2) [] 1 0 ballBelowCanvas).ball.landed = true ∧
      (updateBall fixedEnv (fun _ => 1/2) [] 1 0 ballBelowCanvas).c = 1 - 1 :=
  have h := bottom_loss_top_edge fixedEnv (fun _ => 1/2) [] 1 0 ballBelowCanvas rfl rfl
    (by rw [fixedEnv_layout, fixedLayout_eq]
        unfold applyBallPhysics ballBelowCanvas GRAVITY
        norm_num)
  ⟨rfl, h.1, h.2.2.2.1⟩

/-- C6, counterexample: a ball hitting the peg from above (vertical offset
-8, combined radius 11) is repositioned to vertical offset +5.61 — on the
OPPOSITE side of the peg centre from its vertical offset, and at distance
0.51·11 < 11, i.e. not outside the peg: the code computes
`peg.y - (rb+rp)·sign(dy)·0.51`, not a displacement along `sign(dy)`. -/
theorem peg_reposition_claim_false :
    (pegCollideStep fixedLayout (fun _ => 1/2) (ballAbovePeg, 0) pegAtOrigin).1.y -
        pegAtOrigin.y = 561/100 ∧
      ballAbovePeg.y - pegAtOrigin.y = -8 ∧
      jsSign ((pegCollideStep fixedLayout (fun _ => 1/2) (ballAbovePeg, 0)
          pegAtOrigin).1.y - pegAtOrigin.y) ≠
        jsSign (ballAbovePeg.y - pegAtOrigin.y) ∧
      |(pegCollideStep fixedLayout (fun _ => 1/2) (ballAbovePeg, 0) pegAtOrigin).1.y -
          pegAtOrigin.y| <
        fixedLayout.currentBallRadius + fixedLayout.currentPegRadius := by
  rw [fixedLayout_eq]
  unfold pegCollideStep ballAbovePeg pegAtOrigin jsSign
  norm_num [abs_lt]

set_option maxHeartbeats 1000000 in
/-- C6 (amended): on a peg collision (center distance below ball radius plus
peg radius), the ball is repositioned to
`peg.y - (rb+rp)·sign(dy)·0.51` — i.e. to the side of the peg centre OPPOSITE
the sign of its vertical offset, at 0.51 of the combined radius — its
vertical velocity is inverted and damped by bounceFactor, its horizontal
position is unchanged, and it receives a horizontal velocity directed away
from the peg centre whose magnitude lies in [0.5·scaleFactor,
bumpMagnitude·scaleFactor]: uniformly random in [0, bump·scale) and floored
at the 0.5·scaleFactor threshold in the direction away from the peg. -/
theorem peg_collision_response (L : Layout) (rnd : ℕ → ℚ) (k : ℕ) (b : Ball)
    (peg : Peg)
    (hcol : (b.x - peg.x) * (b.x - peg.x) + (b.y - peg.y) * (b.y - peg.y) <
      (L.currentBallRadius + L.currentPegRadius) *
        (L.currentBallRadius + L.currentPegRadius))
    (hsf : 0 < L.scaleFactor) (hu0 : 0 ≤ rnd k) (hu1 : rnd k < 1) :
    (pegCollideStep L rnd (b, k) peg).1.y =
        peg.y - (L.currentBallRadius + L.currentPegRadius) *
          jsSign (b.y - peg.y) * (51/100) ∧
      (pegCollideStep L rnd (b, k) peg).1.vy = -(BOUNCE_FACTOR * b.vy) ∧
      (pegCollideStep L rnd (b, k) peg).1.x = b.x ∧
      (1/2) * L.scaleFactor ≤ |(pegCollideStep L rnd (b, k) peg).1.vx| ∧
      |(pegCollideStep L rnd (b, k) peg).1.vx| ≤ HORIZONTAL_BUMP * L.scaleFactor ∧
      (b.x < peg.x → (pegCollideStep L rnd (b, k) peg).1.vx < 0) ∧
      (¬ b.x < peg.x → 0 < (pegCollideStep L rnd (b, k) peg).1.vx) := by
  have hbump : (0 : ℚ) < HORIZONTAL_BUMP := by norm_num [HORIZONTAL_BUMP]
  have hHB : HORIZONTAL_BUMP = 3/2 := rfl
  have hneg : (-1 : ℚ) * (1/2) * L.scaleFactor = -(1/2 * L.scaleFactor) := by ring
  have hpos1 : (1 : ℚ) * (1/2) * L.scaleFactor = 1/2 * L.scaleFactor := by ring
  have hnn : (0 : ℚ) ≤ HORIZONTAL_BUMP * L.scaleFactor * rnd k :=
    mul_nonneg (mul_nonneg hbump.le hsf.le) hu0
  have habsneg : |(-(HORIZONTAL_BUMP * L.scaleFactor)) * rnd k| =
      HORIZONTAL_BUMP * L.scaleFactor * rnd k := by
    rw [show (-(HORIZONTAL_BUMP * L.scaleFactor)) * rnd k =
      -(HORIZONTAL_BUMP * L.scaleFactor * rnd k) by ring]
    rw [abs_neg]
    exact abs_of_nonneg hnn
  have habspos : |HORIZONTAL_BUMP * L.scaleFactor * rnd k| =
      HORIZONTAL_BUMP * L.scaleFactor * rnd k := abs_of_nonneg hnn
  have hy : (pegCollideStep L rnd (b, k) peg).1.y =
      peg.y - (L.currentBallRadius + L.currentPegRadius) *
        jsSign (b.y - peg.y) * (51/100) := by
    simp only [pegCollideStep, if_pos hcol]
  have hvy : (pegCollideStep L rnd (b, k) peg).1.vy = b.vy * (-BOUNCE_FACTOR) := by
    simp only [pegCollideStep, if_pos hcol]
  have hxx : (pegCollideStep L rnd (b, k) peg).1.x = b.x := by
    simp only [pegCollideStep, if_pos hcol]
  have hvx : (pegCollideStep L rnd (b, k) peg).1.vx =
      (if |if b.x < peg.x then (-(HORIZONTAL_BUMP * L.scaleFactor)) * rnd k
            else HORIZONTAL_BUMP * L.scaleFactor * rnd k| < 1/2 * L.scaleFactor
        then (if b.x < peg.x then (-1 : ℚ) else 1) * (1/2) * L.scaleFactor
        else if b.x < peg.x then (-(HORIZONTAL_BUMP * L.scaleFactor)) * rnd k
          else HORIZONTAL_BUMP * L.scaleFactor * rnd k) := by
    simp only [pegCollideStep, if_pos hcol]
  refine ⟨hy, by rw [hvy]; ring, hxx, ?_, ?_, ?_, ?_⟩
  · rw [hvx]
    split_ifs with hx hsm hsm
    · rw [hneg, abs_neg, abs_of_pos (by positivity)]
    · push_neg at hsm
      exact hsm
    · rw [hpos1, abs_of_pos (by positivity)]
    · push_neg at hsm
      exact hsm
  · rw [hvx]
    split_ifs with hx hsm hsm
    · rw [hneg, abs_neg, abs_of_pos (by positivity), hHB]
      nlinarith
    · rw [habsneg, hHB]
      nlinarith
    · rw [hpos1, abs_of_pos (by positivity), hHB]
      nlinarith
    · rw [habspos, hHB]
      nlinarith
  · rw [hvx]
    split_ifs with hx hsm hsm
    · intro hlt
      rw [hneg]
      nlinarith
    · intro hlt
      push_neg at hsm
      rw [habsneg] at hsm
      nlinarith
    · exact fun hlt => absurd hlt hx
    · exact fun hlt => absurd hlt hx
  · rw [hvx]
    split_ifs with hx hsm hsm
    · exact fun hge => absurd hx hge
    · exact fun hge => absurd hx hge
    · intro hge
      rw [hpos1]
      nlinarith
    · intro hge
      push_neg at hsm
      rw [habspos] at hsm
      nlinarith

theorem peg_collision_response_witness :
    (0 : ℚ) < fixedLayout.scaleFactor ∧
      (pegCollideStep fixedLayout (fun _ => 1/2) (ballAbovePeg, 0) pegAtOrigin).1.y =
        pegAtOrigin.y - (fixedLayout.currentBallRadius + fixedLayout.currentPegRadius) *
          jsSign (ballAbovePeg.y - pegAtOrigin.y) * (51/100) ∧
      (pegCollideStep fixedLayout (fun _ => 1/2) (ballAbovePeg, 0) pegAtOrigin).1.vy =
        -(BOUNCE_FACTOR * ballAbovePeg.vy) :=
  have hL : (0 : ℚ) < fixedLayout.scaleFactor := by rw [fixedLayout_eq]; norm_num
  have h := peg_collision_response fixedLayout (fun _ => 1/2) 0 ballAbovePeg pegAtOrigin
    (by rw [fixedLayout_eq]; unfold ballAbovePeg pegAtOrigin; norm_num)
    hL (by norm_num) (by norm_num)
  ⟨hL, h.1, h.2.1⟩

end Galton
